import Mathlib

/-!
Verification of the extraction pipeline in `summarize.py` (ai-manufacturing-digest).

Python strings are modelled as `List Char` (a Python `str` is a sequence of code
points).  Python `int` scores are modelled as `Nat` (all contributions are
non-negative).  The regular expressions used by the source are small and fixed,
so each `re` call is embedded as a direct recursive function over `List Char`,
with a comment naming the pattern it implements.  Whitespace (`str.strip`,
regex `\s`) is modelled for the ASCII range, which is faithful for the inputs
the claims are about.
-/

namespace Digest

/-- Whitespace as recognised by Python `str.strip()` and the regex class `\s`
(ASCII range): space, tab, newline, carriage return, vertical tab, form feed. -/
def pyIsSpace (c : Char) : Bool :=
  c = ' ' || c = '\t' || c = '\n' || c = '\r' || c = '\x0b' || c = '\x0c'

/-- Python `str.strip()`: drop leading and trailing whitespace. -/
def pyStrip (l : List Char) : List Char :=
  ((l.dropWhile pyIsSpace).reverse.dropWhile pyIsSpace).reverse

/-- Python `str.lower()` (ASCII range). -/
def lowerL (l : List Char) : List Char := l.map Char.toLower

/-- The Python substring operator `needle in hay` on strings: `needle` occurs
as a contiguous substring of `hay` (the empty string occurs in everything). -/
def substrOf (needle : List Char) : List Char → Bool
  | [] => needle.isEmpty
  | c :: t => needle.isPrefixOf (c :: t) || substrOf needle t

/-- The expanded keyword list `KEYWORDS` (summarize.py lines 67-83). -/
def KEYWORDS : List (List Char) :=
  ["ai".data, "artificial intelligence".data, "machine learning".data, "ml".data,
   "deep learning".data, "neural network".data,
   "llm".data, "large language model".data, "generative ai".data, "genai".data,
   "computer vision".data, "object detection".data,
   "anomaly detection".data, "predictive maintenance".data, "predictive analytics".data,
   "reinforcement learning".data,
   "industry 4.0".data, "iiot".data, "industrial iot".data, "digital twin".data,
   "smart factory".data, "edge ai".data, "industrial automation".data,
   "robot".data, "robotics".data, "cobot".data, "amr".data, "agv".data, "robotic".data,
   "robotics vision".data,
   "quality control".data, "visual inspection".data, "defect detection".data,
   "inspection".data, "process optimization".data,
   "downtime".data, "yield".data, "throughput".data, "oee".data, "CNC".data,
   "3d printing".data, "additive manufacturing".data,
   "supply chain".data, "logistics".data, "warehouse".data, "inventory".data,
   "demand forecasting".data,
   "automotive".data, "food".data, "semiconductor".data, "electronics".data,
   "pharma".data, "aerospace".data]

/-- `KEYWORDS_LOWER = [k.lower() for k in KEYWORDS]` (summarize.py line 85). -/
def KEYWORDS_LOWER : List (List Char) := KEYWORDS.map lowerL

/-! ## Chunker (`chunk_text_by_chars`, summarize.py lines 116-137) -/

/-- Index of the leftmost match of the regex `[.?!]\s` in a window: the first
position holding `.`, `?` or `!` immediately followed by a whitespace character
(both inside the window).  Models `re.search(r'[.?!]\s', ...)` returning
`m.start()` (summarize.py line 130). -/
def findBoundary : List Char → Option Nat
  | c1 :: c2 :: rest =>
    if (c1 = '.' || c1 = '?' || c1 = '!') && pyIsSpace c2 then some 0
    else (findBoundary (c2 :: rest)).map (· + 1)
  | _ => none

/-- One iteration of the chunking loop: the cut position `end` for the current
remaining text, namely `min(chunk_size, len)` possibly moved to the nearest
sentence boundary found within the next 200 characters (summarize.py
lines 127-132, with `start` normalised to 0 by working on the remaining
suffix). -/
def cutPoint (size : Nat) (text : List Char) : Nat :=
  if min size text.length < text.length then
    match findBoundary ((text.drop (min size text.length)).take 200) with
    | some i => min size text.length + i + 1
    | none => min size text.length
  else min size text.length

/-- The `while start < len(text)` loop of `chunk_text_by_chars`, producing the
raw slices `text[start:end]` (before the per-chunk `.strip()`).  The loop is
written on the remaining suffix with explicit fuel; since every iteration
consumes at least one character when `size ≥ 1`, fuel `text.length` makes this
an exact model of the source loop for every positive `chunk_size` (for
`chunk_size ≤ 0` the Python loop may not terminate, so all chunking theorems
assume `0 < size`). -/
def chunkWindowsAux (size : Nat) : Nat → List Char → List (List Char)
  | 0, _ => []
  | _ + 1, [] => []
  | fuel + 1, c :: rest =>
    (c :: rest).take (cutPoint size (c :: rest)) ::
      chunkWindowsAux size fuel ((c :: rest).drop (cutPoint size (c :: rest)))

/-- The raw chunk windows of the loop in `chunk_text_by_chars`. -/
def chunkWindows (size : Nat) (text : List Char) : List (List Char) :=
  chunkWindowsAux size text.length text

/-- `chunk_text_by_chars(text, chunk_size)` (summarize.py lines 116-137):
strip the text; if it fits in one chunk return it alone; otherwise run the
loop, stripping each slice and dropping empty ones. -/
def chunk_text_by_chars (t : List Char) (size : Nat) : List (List Char) :=
  if (pyStrip t).length ≤ size then [pyStrip t]
  else (chunkWindows size (pyStrip t)).filterMap (fun w =>
    if (pyStrip w).isEmpty then none else some (pyStrip w))

/-- The chunk windows of `chunk_text_by_chars` before the per-chunk
whitespace trimming (the slices `text[start:end]` of the loop, and the single
stripped text on the short path): the chunking "ignoring sentence-boundary
trimming" of the specification. -/
def chunkSlices (t : List Char) (size : Nat) : List (List Char) :=
  if (pyStrip t).length ≤ size then [pyStrip t] else chunkWindows size (pyStrip t)

/-! ## Candidate scoring (`score_use_case_candidate`, summarize.py lines 139-158) -/

/-- The structured record built by the parser: the dict
`{"title": ..., "problem": ..., "ai_solution": ..., "category": ..., "industry": ..., "note": ...}`
(summarize.py line 236). -/
structure Fields where
  title : List Char
  problem : List Char
  ai_solution : List Char
  category : List Char
  industry : List Char
  note : List Char
deriving Repr, DecidableEq

/-- The all-empty initial dict of `parse_labelled_output` (summarize.py line 236). -/
def initFields : Fields := ⟨[], [], [], [], [], []⟩

/-- `score_use_case_candidate(candidate, article_text)` (summarize.py
lines 139-158): `combined = " ".join([title, problem, ai_solution]).lower()`,
then for each keyword +3 if it occurs in `combined` and +1 if it occurs in the
lowered article text, then +2 for a non-empty title and +3 for a non-empty
`ai_solution` (Python string truthiness = non-emptiness). -/
def score_use_case_candidate (c : Fields) (article_text : List Char) : Nat :=
  let combined := lowerL (c.title ++ " ".data ++ c.problem ++ " ".data ++ c.ai_solution)
  let article_lower := lowerL article_text
  let base := KEYWORDS_LOWER.foldl (fun s kw =>
    let s1 := if substrOf kw combined then s + 3 else s
    if substrOf kw article_lower then s1 + 1 else s1) 0
  let s2 := if !c.title.isEmpty then base + 2 else base
  if !c.ai_solution.isEmpty then s2 + 3 else s2

/-! ## Model client (`call_openrouter_model`, summarize.py lines 186-218) -/

/-- The outcome of one HTTP POST to the completion endpoint, as observed by the
client: a raised transport exception (`requests.post` throwing, line 204), or a
response with a status code and, for the envelope
`r.json()['choices'][0]['message']['content']`, either the extracted content
string or `none` when the envelope is malformed (the `except` at
lines 212-214). -/
inductive HttpOutcome where
  | exn : HttpOutcome
  | resp (status : Nat) (content : Option (List Char)) : HttpOutcome
deriving DecidableEq

/-- `call_openrouter_model(model_name, prompt, max_tokens)` (summarize.py
lines 186-218), abstracted over the network environment: `env i` is the outcome
the `i`-th HTTP POST of this call would observe.  The source issues exactly one
`requests.post` (line 203) — there is no retry loop, no backoff and no
alternative endpoint — so only `env 0` is consulted.  The result pairs the
returned content (`None` on any exception, any non-200 status, or a malformed
envelope) with the number of POST attempts issued. -/
def call_openrouter_model (env : Nat → HttpOutcome) : Option (List Char) × Nat :=
  (match env 0 with
   | HttpOutcome.exn => none
   | HttpOutcome.resp status content => if status = 200 then content else none,
   1)

/-! ## Winner selection (summarize.py lines 333-343, inside
`extract_single_use_case_for_article`) -/

/-- One insertion step of a stable descending sort on the first component:
the element being inserted comes from earlier in the original list than
everything already sorted, so it goes in front of equal keys.  This models
Python's stable `list.sort(key=lambda x: x[0], reverse=True)`
(summarize.py line 341), whose documentation guarantees that elements with
equal keys retain their original order. -/
def insertDesc {α : Type} (p : Nat × α) : List (Nat × α) → List (Nat × α)
  | [] => [p]
  | q :: qs => if q.1 ≤ p.1 then p :: q :: qs else q :: insertDesc p qs

/-- Stable descending sort by the first component (model of
`scored.sort(key=lambda x: x[0], reverse=True)`, summarize.py line 341). -/
def sortDesc {α : Type} : List (Nat × α) → List (Nat × α)
  | [] => []
  | p :: ps => insertDesc p (sortDesc ps)

/-- The candidate-selection step of `extract_single_use_case_for_article`
(summarize.py lines 333-343): `None` for an empty candidate list, otherwise
score every candidate, sort the `(score, candidate)` pairs stably by score
descending, and return the head's candidate (`winner = scored[0][1]`). -/
def select_winner (candidates : List Fields) (article_text : List Char) : Option Fields :=
  if candidates.isEmpty then none
  else
    (sortDesc (candidates.map
      (fun c => (score_use_case_candidate c article_text, c)))).head?.map Prod.snd

/-! ## Output parser (`parse_labelled_output`, summarize.py lines 220-287) -/

/-- The backtick character (escaped so the source text stays plain). -/
def btick : Char := Char.ofNat 96

/-- Scan for the first run of three consecutive backticks (a closing fence);
on success return the suffix after the fence. -/
def dropToClose : List Char → Option (List Char)
  | a :: b :: c :: rest =>
    if a = btick && b = btick && c = btick then some rest
    else dropToClose (b :: c :: rest)
  | _ => none

/-- The substitution `re.sub(r'...[\s\S]*?...', '', text)` with the pattern
being three backticks, a non-greedy run of arbitrary characters, and three
backticks again (summarize.py line 231): every complete fenced block is
deleted together with its content.  Scanning is char-by-char; on an opening
triple with no later triple at all, no match can start anywhere, so the text
is returned unchanged.  Fuel `l.length` is enough because each step either
emits one character or consumes a whole match of length at least six. -/
def removeFencesAux : Nat → List Char → List Char
  | 0, l => l
  | fuel + 1, l =>
    match l with
    | a :: b :: c :: rest =>
      if a = btick && b = btick && c = btick then
        match dropToClose rest with
        | some suffix => removeFencesAux fuel suffix
        | none => l
      else a :: removeFencesAux fuel (b :: c :: rest)
    | short => short

/-- `re.sub` deleting all complete triple-backtick fenced blocks
(summarize.py line 231). -/
def removeFences (l : List Char) : List Char := removeFencesAux l.length l

/-- `re.sub(r'\*\*|\[|\]', '', text)` (summarize.py line 232): delete every
`**` pair, `[` and `]`, scanning left to right. -/
def removeMarkdown : List Char → List Char
  | '*' :: '*' :: rest => removeMarkdown rest
  | '[' :: rest => removeMarkdown rest
  | ']' :: rest => removeMarkdown rest
  | c :: rest => c :: removeMarkdown rest
  | [] => []

/-- Python `str.splitlines()` for the line boundaries `\r\n`, `\r`, `\n`:
boundaries separate lines, a terminal boundary does not produce a trailing
empty line, and the empty string has no lines. -/
def splitlinesAux : List Char → List Char → List (List Char)
  | acc, [] => if acc.isEmpty then [] else [acc.reverse]
  | acc, '\n' :: rest => acc.reverse :: splitlinesAux [] rest
  | acc, '\r' :: '\n' :: rest => acc.reverse :: splitlinesAux [] rest
  | acc, '\r' :: rest => acc.reverse :: splitlinesAux [] rest
  | acc, c :: rest => splitlinesAux (c :: acc) rest

/-- Python `str.splitlines()`. -/
def splitlines (l : List Char) : List (List Char) := splitlinesAux [] l

/-- Drop leading regex whitespace (`\s*`). -/
def dropSpaces (l : List Char) : List Char := l.dropWhile pyIsSpace

/-- Case-insensitive literal prefix match (regex literal under `re.I`): on
success return the remainder of the line after the label. -/
def stripLabelCI : List Char → List Char → Option (List Char)
  | [], s => some s
  | _ :: _, [] => none
  | a :: as, b :: bs => if a.toLower = b.toLower then stripLabelCI as bs else none

/-- `re.match(r'^\s*LABEL\s*:\s*(.+)', ln, flags=re.I)` followed by
`.group(k).strip()` (the per-label patterns of summarize.py lines 240-262):
optional leading whitespace, the label literal case-insensitively, optional
whitespace, a colon, then a non-empty remainder, which is returned stripped.
(The lines fed to this matcher are already stripped, so a remainder that is
non-empty always contains a non-whitespace character, making this equivalent
to the regex's backtracking behaviour.) -/
def matchLabel (label : List Char) (ln : List Char) : Option (List Char) :=
  match stripLabelCI label (dropSpaces ln) with
  | none => none
  | some rest =>
    match dropSpaces rest with
    | ':' :: r2 =>
      let g := dropSpaces r2
      if g.isEmpty then none else some (pyStrip g)
    | _ => none

/-- The first-pass loop body of `parse_labelled_output` (summarize.py
lines 239-263): try the six label patterns in order, `continue` after the
first that matches, overwriting any previously stored value for that field. -/
def parseLine (f : Fields) (ln : List Char) : Fields :=
  match matchLabel ("Title".data) ln with
  | some v => { f with title := v }
  | none =>
  match matchLabel ("Problem".data) ln with
  | some v => { f with problem := v }
  | none =>
  match matchLabel ("AI Solution".data) ln with
  | some v => { f with ai_solution := v }
  | none =>
  match matchLabel ("Category".data) ln with
  | some v => { f with category := v }
  | none =>
  match matchLabel ("Industry".data) ln with
  | some v => { f with industry := v }
  | none =>
  match matchLabel ("Note".data) ln with
  | some v => { f with note := v }
  | none => f

/-- The preprocessed, stripped, non-empty lines the parser works on
(summarize.py lines 231-234). -/
def parsedLines (t : List Char) : List (List Char) :=
  ((splitlines (removeMarkdown (removeFences t))).map pyStrip).filter
    (fun ln => !ln.isEmpty)

/-- The label-based first pass over all lines (summarize.py lines 239-263). -/
def firstPass (lines : List (List Char)) : Fields :=
  lines.foldl parseLine initFields

/-- The second-pass title inference (summarize.py lines 266-271): the first
line containing no colon and longer than 10 characters, truncated to 120
characters and stripped. -/
def inferTitle : List (List Char) → Option (List Char)
  | [] => none
  | ln :: rest =>
    if !ln.contains ':' && decide (10 < ln.length) then some (pyStrip (ln.take 120))
    else inferTitle rest

/-- Apply the title inference when the first pass found no title
(summarize.py lines 266-271). -/
def applyTitleInference (lines : List (List Char)) (f : Fields) : Fields :=
  if f.title.isEmpty then
    match inferTitle lines with
    | some v => { f with title := v }
    | none => f
  else f

/-- The keyword search of the backfill step (summarize.py lines 276-279):
the first keyword of `KEYWORDS_LOWER`, in list order, occurring in the
lowered problem text. -/
def firstKeywordIn (problem : List Char) : Option (List Char) :=
  KEYWORDS_LOWER.find? (fun kw => substrOf kw (lowerL problem))

/-- The `ai_solution` backfill (summarize.py lines 274-281): when
`ai_solution` is empty and `problem` is not, set `ai_solution` to the first
matching keyword, or to the literal `"unspecified"` when none matches. -/
def applyBackfill (f : Fields) : Fields :=
  if f.ai_solution.isEmpty && !f.problem.isEmpty then
    match firstKeywordIn f.problem with
    | some kw => { f with ai_solution := kw }
    | none => { f with ai_solution := "unspecified".data }
  else f

/-- The parser state just before the final validity gate: first pass, then
title inference, then backfill. -/
def preGate (t : List Char) : Fields :=
  applyBackfill (applyTitleInference (parsedLines t) (firstPass (parsedLines t)))

/-- `parse_labelled_output(text)` (summarize.py lines 220-287): `None` for an
empty or whitespace-only input; otherwise delete fenced blocks and markdown,
split into stripped non-empty lines, run the label pass, the title inference
and the backfill, and return the fields unless title or `ai_solution` ended up
empty (the final gate at lines 284-285). -/
def parse_labelled_output (t : List Char) : Option Fields :=
  if (pyStrip t).isEmpty then none
  else if (preGate t).title.isEmpty || (preGate t).ai_solution.isEmpty then none
  else some (preGate t)

/-! ## Derived notions used in theorem statements -/

/-- The number of domain keywords occurring in a (lowered) text: the counting
view of the +3/+1 accumulation loop of `score_use_case_candidate`. -/
def kwCount (s : List Char) : Nat :=
  (KEYWORDS_LOWER.filter (fun kw => substrOf kw s)).length

/-- Modelled from the words of claim C4, for comparison with the source
definition: the score formula with "the concatenation of title, problem and
aiSolution" read literally, i.e. the three fields concatenated with no
separator (the source instead joins them with single spaces,
`" ".join([...])`, line 145). -/
def claimScoreC4 (c : Fields) (art : List Char) : Nat :=
  3 * kwCount (lowerL (c.title ++ c.problem ++ c.ai_solution)) + kwCount (lowerL art)
    + (if c.title.isEmpty then 0 else 2) + (if c.ai_solution.isEmpty then 0 else 3)

/-- A network environment for `call_openrouter_model` whose first response is
an HTTP 429 (rate limited) and whose second would be a successful 200: a
client that retried after backoff, as claim C2 describes, would obtain the
content; the source returns `None` after its single attempt. -/
def env429 : Nat → HttpOutcome := fun i =>
  if i = 0 then HttpOutcome.resp 429 (some ("rate limited".data))
  else HttpOutcome.resp 200 (some ("ok".data))

/-- Concrete model reply used for claims C5/C6: a label block with a title and
a problem line mentioning machine learning but no `AI Solution:` line. -/
def replyBackfill : List Char :=
  "Title: Foo\nProblem: uses machine learning for defect detection".data

/-- Concrete model reply with a problem line only: no title can be found or
inferred (the single line contains a colon), no keyword occurs in the problem
text, and the parser discards the reply. -/
def replyProblemOnly : List Char := "Problem: beep boop".data

/-- The inside of a fenced JSON reply (tag, newlines and a JSON object; it
contains no backtick). -/
def jsonFencedBody : List Char :=
  "json\n\x7b\"problem\": \"p\", \"ai_solution\": \"s\", \"category\": \"c\", \"industry\": \"i\"\x7d\n".data

/-! ## Theorems -/

/-- C7: the parser is total — for every input string it terminates and yields
either a candidate record or null.  (`parse_labelled_output` is a structurally
recursive Lean function, so termination holds by construction; the dichotomy
below is the "candidate or null" shape of its result.) -/
theorem parse_labelled_output_total (t : List Char) :
    parse_labelled_output t = none ∨ ∃ f, parse_labelled_output t = some f := by
  cases h : parse_labelled_output t with
  | none => exact Or.inl rfl
  | some f => exact Or.inr ⟨f, rfl⟩

/-- C5: whenever the parser returns a candidate, both its title and its
`ai_solution` are non-empty — a reply yielding an empty title or an empty
`ai_solution` after all repair heuristics is discarded. -/
theorem parse_some_title_ai_nonempty (t : List Char) (f : Fields)
    (h : parse_labelled_output t = some f) :
    f.title ≠ [] ∧ f.ai_solution ≠ [] := by
  unfold parse_labelled_output at h
  split at h
  · exact absurd h (by simp)
  · split at h
    · exact absurd h (by simp)
    · next hgate =>
      rw [Option.some_inj] at h
      subst h
      rw [Bool.or_eq_true, not_or] at hgate
      constructor
      · simpa using hgate.1
      · simpa using hgate.2

/-- C5 witness: the label reply `"Title: Foo\nProblem: uses machine learning
for defect detection"` parses to a record, whose title and `ai_solution` the
theorem shows non-empty. -/
theorem parse_some_title_ai_nonempty_witness :
    (Fields.mk ("Foo".data) ("uses machine learning for defect detection".data)
      ("machine learning".data) [] [] []).title ≠ [] ∧
    (Fields.mk ("Foo".data) ("uses machine learning for defect detection".data)
      ("machine learning".data) [] [] []).ai_solution ≠ [] :=
  parse_some_title_ai_nonempty replyBackfill _ (by decide)

/-- C8 counterexample: the claim `chunk(t, maxChars) = [t]` for `len(t) ≤
maxChars` fails on the code, because `chunk_text_by_chars` strips the text
before the length test: for `t = " a "` (length 3 ≤ 4000) it returns
`["a"]`, not `[" a "]`. -/
theorem chunk_short_cex :
    (" a ".data.length ≤ 4000) ∧
      chunk_text_by_chars (" a ".data) 4000 ≠ [" a ".data] := by
  decide

/-- C8 (amended): for every text whose stripped form has length at most
`maxChars`, `chunk` returns the single-element sequence holding the stripped
text. -/
theorem chunk_short_stripped (t : List Char) (size : Nat)
    (h : (pyStrip t).length ≤ size) :
    chunk_text_by_chars t size = [pyStrip t] := by
  unfold chunk_text_by_chars
  simp [h]

/-- C8 witness: the amended statement applied at `t = " a "`,
`maxChars = 4000`. -/
theorem chunk_short_stripped_witness :
    chunk_text_by_chars (" a ".data) 4000 = [pyStrip (" a ".data)] :=
  chunk_short_stripped (" a ".data) 4000 (by decide)

/-- C2 counterexample: on an environment whose first response is HTTP 429 and
whose second would be a 200, `call_openrouter_model` issues exactly one
attempt (so not the claimed `N ≥ 2`) and returns `None` — there is no retry,
no backoff and no further endpoint. -/
theorem call_openrouter_model_single_attempt_cex :
    (call_openrouter_model env429).2 = 1 ∧
      ¬ 2 ≤ (call_openrouter_model env429).2 ∧
      (call_openrouter_model env429).1 = none := by
  decide

/-- C2 (amended): for every network environment the model client performs
exactly one attempt against the single configured endpoint, and on a non-200
status (HTTP 429 included) it returns `None` with no retry. -/
theorem call_openrouter_model_one_attempt (env : Nat → HttpOutcome)
    (s : Nat) (c : Option (List Char)) :
    (call_openrouter_model env).2 = 1 ∧
      (env 0 = HttpOutcome.resp s c → s ≠ 200 → (call_openrouter_model env).1 = none) := by
  refine ⟨rfl, ?_⟩
  intro h hs
  unfold call_openrouter_model
  rw [h]
  simp [hs]

/-- C2 witness: the amended statement applied to the concrete 429-then-200
environment. -/
theorem call_openrouter_model_one_attempt_witness :
    (call_openrouter_model env429).2 = 1 ∧ (call_openrouter_model env429).1 = none :=
  ⟨(call_openrouter_model_one_attempt env429 429 (some ("rate limited".data))).1,
   (call_openrouter_model_one_attempt env429 429 (some ("rate limited".data))).2
     (by decide) (by decide)⟩

theorem findBoundary_bound : ∀ (l : List Char) (i : Nat),
    findBoundary l = some i → i + 2 ≤ l.length := by
  intro l
  induction l with
  | nil => intro i h; cases h
  | cons c1 rest ih =>
    intro i h
    cases rest with
    | nil => cases h
    | cons c2 rest2 =>
      rw [findBoundary] at h
      split at h
      · cases h
        simp
      · rw [Option.map_eq_some'] at h
        obtain ⟨j, hj, rfl⟩ := h
        have := ih j hj
        simp only [List.length_cons] at this ⊢
        omega

theorem cutPoint_le (size : Nat) (text : List Char) :
    cutPoint size text ≤ size + 199 := by
  unfold cutPoint
  split
  · split
    · next i hfind =>
      have h2 := findBoundary_bound _ _ hfind
      have h3 : ((text.drop (min size text.length)).take 200).length ≤ 200 := by
        simp
      have h4 : min size text.length ≤ size := Nat.min_le_left _ _
      omega
    · have := Nat.min_le_left size text.length
      omega
  · have := Nat.min_le_left size text.length
    omega

theorem cutPoint_pos (size : Nat) (text : List Char)
    (hs : 0 < size) (ht : text ≠ []) : 0 < cutPoint size text := by
  have hlen : 0 < text.length := List.length_pos.mpr ht
  unfold cutPoint
  split
  · split
    · omega
    · exact lt_min hs hlen
  · exact lt_min hs hlen

theorem chunkWindowsAux_flatten (size : Nat) (hs : 0 < size) :
    ∀ (fuel : Nat) (text : List Char), text.length ≤ fuel →
      (chunkWindowsAux size fuel text).flatten = text := by
  intro fuel
  induction fuel with
  | zero =>
    intro text hlen
    rw [List.length_eq_zero.mp (Nat.le_zero.mp hlen)]
    rfl
  | succ n ih =>
    intro text hlen
    cases text with
    | nil => rfl
    | cons c rest =>
      rw [chunkWindowsAux]
      have hpos : 0 < cutPoint size (c :: rest) :=
        cutPoint_pos size (c :: rest) hs (by simp)
      have hdrop : ((c :: rest).drop (cutPoint size (c :: rest))).length ≤ n := by
        rw [List.length_drop]
        simp only [List.length_cons] at hlen ⊢
        omega
      simp only [List.flatten_cons, ih _ hdrop, List.take_append_drop]

theorem chunkWindowsAux_length_le (size : Nat) :
    ∀ (fuel : Nat) (text : List Char) (c : List Char),
      c ∈ chunkWindowsAux size fuel text → c.length ≤ size + 199 := by
  intro fuel
  induction fuel with
  | zero => intro text c h; cases h
  | succ n ih =>
    intro text c h
    cases text with
    | nil => cases h
    | cons a rest =>
      rw [chunkWindowsAux] at h
      rcases List.mem_cons.mp h with hc | hc
      · subst hc
        have h1 : ((a :: rest).take (cutPoint size (a :: rest))).length ≤
            cutPoint size (a :: rest) := by
          simp [List.length_take]
        have h2 := cutPoint_le size (a :: rest)
        omega
      · exact ih _ _ hc

theorem pyStrip_length_le (l : List Char) : (pyStrip l).length ≤ l.length := by
  unfold pyStrip
  calc ((l.dropWhile pyIsSpace).reverse.dropWhile pyIsSpace).reverse.length
      = ((l.dropWhile pyIsSpace).reverse.dropWhile pyIsSpace).length := by
        rw [List.length_reverse]
    _ ≤ (l.dropWhile pyIsSpace).reverse.length :=
        (List.dropWhile_sublist pyIsSpace).length_le
    _ = (l.dropWhile pyIsSpace).length := by rw [List.length_reverse]
    _ ≤ l.length := (List.dropWhile_sublist pyIsSpace).length_le

/-- C9 counterexample: the chunk windows do not cover the original text when
it carries surrounding whitespace, because `chunk_text_by_chars` strips the
text before chunking: for `t = " a "` the windows concatenate to `"a"`, so
position 0 of `t` lies in no window. -/
theorem chunk_cover_cex :
    (chunkSlices (" a ".data) 4000).flatten ≠ " a ".data := by
  decide

/-- C9 (amended): for every text `t` and positive `maxChars`, the
concatenation of the chunk windows (the slices before per-chunk whitespace
trimming) equals the stripped text `t.strip()` — the windows cover
`t.strip()` without gaps or overlaps. -/
theorem chunkSlices_flatten (t : List Char) (size : Nat) (hs : 0 < size) :
    (chunkSlices t size).flatten = pyStrip t := by
  unfold chunkSlices
  split
  · simp
  · exact chunkWindowsAux_flatten size hs _ _ le_rfl

/-- C9 witness: the amended statement applied at `t = "a b c d e"`,
`maxChars = 2`. -/
theorem chunkSlices_flatten_witness :
    (chunkSlices ("a b c d e".data) 2).flatten = pyStrip ("a b c d e".data) :=
  chunkSlices_flatten ("a b c d e".data) 2 (by decide)

/-- C10: for every text and positive `maxChars`, every chunk produced by
`chunk_text_by_chars` has length at most `maxChars + 200` (the sentence
boundary search moves the right edge fewer than 200 characters past the
window, and the per-chunk strip only shortens). -/
theorem chunk_length_bound (t : List Char) (size : Nat) (hs : 0 < size) :
    ∀ c ∈ chunk_text_by_chars t size, c.length ≤ size + 200 := by
  intro c hc
  unfold chunk_text_by_chars at hc
  split at hc
  · next hshort =>
    rcases List.mem_singleton.mp hc with rfl
    omega
  · rw [List.mem_filterMap] at hc
    obtain ⟨w, hw, hcw⟩ := hc
    have hwlen : w.length ≤ size + 199 := chunkWindowsAux_length_le size _ _ w hw
    have : c.length ≤ w.length := by
      by_cases he : (pyStrip w).isEmpty
      · rw [if_pos he] at hcw; cases hcw
      · rw [if_neg he, Option.some_inj] at hcw
        subst hcw
        exact pyStrip_length_le w
    omega

/-- C10 witness: the bound applied at `t = "ab"`, `maxChars = 1`, to the
chunk `"a"`. -/
theorem chunk_length_bound_witness : ("a".data).length ≤ 1 + 200 :=
  chunk_length_bound ("ab".data) 1 (by decide) ("a".data) (by decide)

theorem score_foldl_count (ks : List (List Char)) (comb art : List Char) (acc : Nat) :
    ks.foldl (fun s kw =>
        if substrOf kw art then (if substrOf kw comb then s + 3 else s) + 1
        else (if substrOf kw comb then s + 3 else s)) acc =
      acc + 3 * (ks.filter (fun kw => substrOf kw comb)).length
          + (ks.filter (fun kw => substrOf kw art)).length := by
  induction ks generalizing acc with
  | nil => simp
  | cons k ks ih =>
    simp only [List.foldl_cons, List.filter_cons]
    by_cases h1 : substrOf k comb <;> by_cases h2 : substrOf k art <;>
      simp [h1, h2, ih] <;> omega

/-- C4 counterexample: the claimed score formula reads "the concatenation of
title, problem and aiSolution", but the code joins the three fields with
single spaces, so a keyword straddling a field boundary is counted by the
claim and not by the code: for title `"a"`, problem `"i"`, aiSolution `"x"`
the concatenation `"aix"` contains the keyword `"ai"` (claimed score 8) while
the code's `"a i x"` does not (computed score 5). -/
theorem score_concat_cex :
    score_use_case_candidate (Fields.mk ("a".data) ("i".data) ("x".data) [] [] []) [] = 5 ∧
      claimScoreC4 (Fields.mk ("a".data) ("i".data) ("x".data) [] [] []) [] = 8 ∧
      score_use_case_candidate (Fields.mk ("a".data) ("i".data) ("x".data) [] [] []) [] ≠
        claimScoreC4 (Fields.mk ("a".data) ("i".data) ("x".data) [] [] []) [] := by
  decide

/-- C4 (amended): the computed relevance score equals 3 for each domain
keyword occurring (case-insensitive substring) in the space-separated
concatenation `title + " " + problem + " " + aiSolution`, plus 1 for each
domain keyword occurring in the full article text, plus 2 if the title is
non-empty, plus 3 if `ai_solution` is non-empty. -/
theorem score_use_case_candidate_formula (c : Fields) (art : List Char) :
    score_use_case_candidate c art =
      3 * kwCount (lowerL (c.title ++ " ".data ++ c.problem ++ " ".data ++ c.ai_solution))
        + kwCount (lowerL art)
        + (if c.title.isEmpty then 0 else 2)
        + (if c.ai_solution.isEmpty then 0 else 3) := by
  simp only [score_use_case_candidate]
  rw [score_foldl_count]
  unfold kwCount
  by_cases ht : c.title.isEmpty <;> by_cases ha : c.ai_solution.isEmpty <;>
    simp [ht, ha]

theorem insertDesc_head {α : Type} (p q : Nat × α) (qs : List (Nat × α)) :
    (insertDesc p (q :: qs)).head? = some (if q.1 ≤ p.1 then p else q) := by
  by_cases h : q.1 ≤ p.1 <;> simp [insertDesc, h]

theorem sortDesc_head_firstMax {α : Type} (l : List (Nat × α)) (hne : l ≠ []) :
    ∃ i, ∃ hi : i < l.length, (sortDesc l).head? = some l[i] ∧
      (∀ j, ∀ hj : j < l.length, (l[j]).1 ≤ (l[i]).1) ∧
      (∀ j, ∀ hj : j < l.length, j < i → (l[j]).1 < (l[i]).1) := by
  induction l with
  | nil => exact absurd rfl hne
  | cons p ps ih =>
    by_cases hps : ps = []
    · subst hps
      refine ⟨0, by simp, by simp [sortDesc, insertDesc], ?_, ?_⟩
      · intro j hj
        have hj0 : j = 0 := by simpa using Nat.lt_one_iff.mp (by simpa using hj)
        subst hj0
        exact le_rfl
      · intro j hj hj0
        exact absurd hj0 (Nat.not_lt_zero j)
    · obtain ⟨i, hi, hhead, hmax, hfirst⟩ := ih hps
      obtain ⟨tail, htail⟩ : ∃ tail, sortDesc ps = ps[i] :: tail := by
        cases hsp : sortDesc ps with
        | nil => rw [hsp] at hhead; cases hhead
        | cons a t =>
          rw [hsp] at hhead
          simp only [List.head?_cons, Option.some_inj] at hhead
          exact ⟨t, by rw [hhead]⟩
      by_cases hcmp : (ps[i]).1 ≤ p.1
      · refine ⟨0, by simp, ?_, ?_, ?_⟩
        · rw [sortDesc, htail, insertDesc_head, if_pos hcmp]
          simp
        · intro j hj
          cases j with
          | zero => exact le_rfl
          | succ j' =>
            have hj' : j' < ps.length := by simpa using hj
            calc ((p :: ps)[j' + 1]).1 = (ps[j']).1 := by simp
              _ ≤ (ps[i]).1 := hmax j' hj'
              _ ≤ ((p :: ps)[0]).1 := hcmp
        · intro j hj hj0
          exact absurd hj0 (Nat.not_lt_zero j)
      · have hpi : i + 1 < (p :: ps).length := by simpa using Nat.succ_lt_succ hi
        refine ⟨i + 1, hpi, ?_, ?_, ?_⟩
        · rw [sortDesc, htail, insertDesc_head, if_neg hcmp]
          simp
        · intro j hj
          cases j with
          | zero => exact le_of_lt (by simpa using Nat.lt_of_not_le hcmp)
          | succ j' =>
            have hj' : j' < ps.length := by simpa using hj
            calc ((p :: ps)[j' + 1]).1 = (ps[j']).1 := by simp
              _ ≤ (ps[i]).1 := hmax j' hj'
              _ = ((p :: ps)[i + 1]).1 := by simp
        · intro j hj hj0
          cases j with
          | zero =>
            have : p.1 < (ps[i]).1 := Nat.lt_of_not_le hcmp
            simpa using this
          | succ j' =>
            have hj' : j' < ps.length := by simpa using hj
            have hj0' : j' < i := Nat.lt_of_succ_lt_succ hj0
            calc ((p :: ps)[j' + 1]).1 = (ps[j']).1 := by simp
              _ < (ps[i]).1 := hfirst j' hj' hj0'
              _ = ((p :: ps)[i + 1]).1 := by simp

/-- C1: for every non-empty candidate list and article text, the selection
step returns a candidate of maximal relevance score, and any candidate
discovered strictly earlier has a strictly smaller score — so on ties the
first-discovered candidate wins (Python's `list.sort` is stable and
`reverse=True` keeps equal-keyed elements in original order). -/
theorem select_winner_first_max (cs : List Fields) (art : List Char)
    (hne : cs ≠ []) :
    ∃ i, ∃ hi : i < cs.length, select_winner cs art = some cs[i] ∧
      (∀ j, ∀ hj : j < cs.length,
        score_use_case_candidate (cs[j]) art ≤ score_use_case_candidate (cs[i]) art) ∧
      (∀ j, ∀ hj : j < cs.length, j < i →
        score_use_case_candidate (cs[j]) art < score_use_case_candidate (cs[i]) art) := by
  have hmapne : cs.map (fun c => (score_use_case_candidate c art, c)) ≠ [] := by
    simpa using hne
  obtain ⟨i, hi, hhead, hmax, hfirst⟩ :=
    sortDesc_head_firstMax (cs.map (fun c => (score_use_case_candidate c art, c))) hmapne
  rw [List.length_map] at hi
  refine ⟨i, hi, ?_, ?_, ?_⟩
  · unfold select_winner
    rw [if_neg (by simpa using hne)]
    rw [hhead]
    simp
  · intro j hj
    have := hmax j (by simpa using hj)
    simpa using this
  · intro j hj hji
    have := hfirst j (by simpa using hj) hji
    simpa using this

/-- C1 witness: with two concrete candidates of scores 8 and 5, the selection
returns the first (index 0 satisfies the three properties). -/
theorem select_winner_first_max_witness :
    ∃ i, ∃ hi : i < ([Fields.mk ("Foo".data) [] ("ML".data) [] [] [],
        Fields.mk ("Bar".data) [] ("x".data) [] [] []] : List Fields).length,
      select_winner [Fields.mk ("Foo".data) [] ("ML".data) [] [] [],
          Fields.mk ("Bar".data) [] ("x".data) [] [] []] [] =
        some ([Fields.mk ("Foo".data) [] ("ML".data) [] [] [],
          Fields.mk ("Bar".data) [] ("x".data) [] [] []][i]) ∧
      (∀ j, ∀ hj : j < ([Fields.mk ("Foo".data) [] ("ML".data) [] [] [],
          Fields.mk ("Bar".data) [] ("x".data) [] [] []] : List Fields).length,
        score_use_case_candidate ([Fields.mk ("Foo".data) [] ("ML".data) [] [] [],
            Fields.mk ("Bar".data) [] ("x".data) [] [] []][j]) [] ≤
          score_use_case_candidate ([Fields.mk ("Foo".data) [] ("ML".data) [] [] [],
            Fields.mk ("Bar".data) [] ("x".data) [] [] []][i]) []) ∧
      (∀ j, ∀ hj : j < ([Fields.mk ("Foo".data) [] ("ML".data) [] [] [],
          Fields.mk ("Bar".data) [] ("x".data) [] [] []] : List Fields).length,
        j < i →
        score_use_case_candidate ([Fields.mk ("Foo".data) [] ("ML".data) [] [] [],
            Fields.mk ("Bar".data) [] ("x".data) [] [] []][j]) [] <
          score_use_case_candidate ([Fields.mk ("Foo".data) [] ("ML".data) [] [] [],
            Fields.mk ("Bar".data) [] ("x".data) [] [] []][i]) []) :=
  select_winner_first_max
    [Fields.mk ("Foo".data) [] ("ML".data) [] [] [],
     Fields.mk ("Bar".data) [] ("x".data) [] [] []] [] (by decide)

theorem dropToClose_cons_ne (a : Char) (l : List Char) (ha : a ≠ btick)
    (hl : 2 ≤ l.length) : dropToClose (a :: l) = dropToClose l := by
  cases l with
  | nil => simp at hl
  | cons b t =>
    cases t with
    | nil => simp at hl
    | cons c r =>
      rw [dropToClose]
      rw [if_neg (by simp [ha])]

theorem dropToClose_fence_end (s : List Char) (hs : btick ∉ s) :
    dropToClose (s ++ [btick, btick, btick]) = some [] := by
  induction s with
  | nil => decide
  | cons a s ih =>
    have ha : a ≠ btick := fun h => hs (h ▸ List.mem_cons_self a s)
    have hlen : 2 ≤ (s ++ [btick, btick, btick]).length := by simp
    rw [List.cons_append, dropToClose_cons_ne a _ ha hlen]
    exact ih (fun h => hs (List.mem_cons_of_mem a h))

theorem removeFencesAux_nil (fuel : Nat) : removeFencesAux fuel [] = [] := by
  cases fuel <;> rfl

theorem removeFences_fenced (s : List Char) (hs : btick ∉ s) :
    removeFences (btick :: btick :: btick :: (s ++ [btick, btick, btick])) = [] := by
  show removeFencesAux _ _ = []
  rw [show (btick :: btick :: btick :: (s ++ [btick, btick, btick])).length =
      (s.length + 5) + 1 by simp]
  rw [removeFencesAux]
  rw [if_pos (by decide)]
  rw [dropToClose_fence_end s hs]
  exact removeFencesAux_nil _

theorem pyStrip_eq_nil_all_space (l : List Char) (h : pyStrip l = []) :
    ∀ c ∈ l, pyIsSpace c = true := by
  unfold pyStrip at h
  have h1 : (l.dropWhile pyIsSpace).reverse.dropWhile pyIsSpace = [] := by
    have := congrArg List.reverse h
    simpa using this
  have h2 : ∀ c ∈ (l.dropWhile pyIsSpace).reverse, pyIsSpace c = true :=
    List.dropWhile_eq_nil_iff.mp h1
  intro c hc
  have hsplit : c ∈ l.takeWhile pyIsSpace ++ l.dropWhile pyIsSpace := by
    rw [List.takeWhile_append_dropWhile]
    exact hc
  rcases List.mem_append.mp hsplit with hmem | hmem
  · exact List.mem_takeWhile_imp hmem
  · exact h2 c (List.mem_reverse.mpr hmem)

/-- C3 counterexample: a reply that is exactly a JSON object wrapped in
triple-backtick fences parses to `None` — `parse_labelled_output` deletes the
whole fenced block (content included, line 231) and never parses JSON, so the
`problem`/`ai_solution`/`category`/`industry` fields are not mapped into a
candidate; the reply is discarded. -/
theorem parse_fenced_json_cex :
    parse_labelled_output
      ("```json\n\x7b\"problem\": \"p\", \"ai_solution\": \"s\", \"category\": \"c\", \"industry\": \"i\"\x7d\n```".data)
      = none := by
  decide

/-- C3 (amended): for every reply consisting of a triple-backtick-fenced block
whose content holds no backtick (in particular, a fenced JSON object, with or
without a `json` tag), the parser deletes the block with its content, finds no
label lines, and discards the reply (returns null) instead of mapping the JSON
fields. -/
theorem parse_fenced_reply_discarded (s : List Char) (hs : btick ∉ s) :
    parse_labelled_output (btick :: btick :: btick :: (s ++ [btick, btick, btick])) = none := by
  have hstrip : (pyStrip (btick :: btick :: btick :: (s ++ [btick, btick, btick]))).isEmpty
      = false := by
    rw [List.isEmpty_eq_false]
    intro hnil
    have := pyStrip_eq_nil_all_space _ hnil btick (List.mem_cons_self _ _)
    exact absurd this (by decide)
  have hlines : parsedLines (btick :: btick :: btick :: (s ++ [btick, btick, btick])) = [] := by
    unfold parsedLines
    rw [removeFences_fenced s hs]
    rfl
  unfold parse_labelled_output preGate
  rw [hlines]
  simp [hstrip, firstPass, applyTitleInference, inferTitle, applyBackfill, initFields]

/-- C3 witness: the amended statement applied to the concrete fenced JSON
body. -/
theorem parse_fenced_reply_discarded_witness :
    parse_labelled_output
      (btick :: btick :: btick :: (jsonFencedBody ++ [btick, btick, btick])) = none :=
  parse_fenced_reply_discarded jsonFencedBody (by decide)

/-- C6 counterexample: the claim promises that a reply whose parsed
`ai_solution` is empty and whose `problem` is non-empty is not discarded; but
for the reply `"Problem: beep boop"` the pre-backfill state has exactly that
shape and the parser still returns `None`, because no title was found or
inferred and the final gate also requires a non-empty title. -/
theorem parse_backfill_discarded_cex :
    (applyTitleInference (parsedLines replyProblemOnly)
      (firstPass (parsedLines replyProblemOnly))).ai_solution = [] ∧
    (applyTitleInference (parsedLines replyProblemOnly)
      (firstPass (parsedLines replyProblemOnly))).problem ≠ [] ∧
    parse_labelled_output replyProblemOnly = none := by
  decide

/-- C6 (amended): for every reply whose parsed `ai_solution` is empty, whose
`problem` is non-empty and whose title is non-empty (so that the final gate
can pass at all), the parser returns a candidate whose `ai_solution` is the
first domain keyword occurring case-insensitively in `problem`, or the
literal `"unspecified"` when no keyword matches. -/
theorem parse_backfill_sets_keyword (t : List Char)
    (hne : (pyStrip t).isEmpty = false)
    (hai : (applyTitleInference (parsedLines t) (firstPass (parsedLines t))).ai_solution = [])
    (hpr : (applyTitleInference (parsedLines t) (firstPass (parsedLines t))).problem ≠ [])
    (hti : (applyTitleInference (parsedLines t) (firstPass (parsedLines t))).title ≠ []) :
    parse_labelled_output t =
      some { applyTitleInference (parsedLines t) (firstPass (parsedLines t)) with
             ai_solution :=
               (firstKeywordIn
                 (applyTitleInference (parsedLines t) (firstPass (parsedLines t))).problem).getD
                 ("unspecified".data) } := by
  have hback : applyBackfill (applyTitleInference (parsedLines t) (firstPass (parsedLines t))) =
      { applyTitleInference (parsedLines t) (firstPass (parsedLines t)) with
        ai_solution :=
          (firstKeywordIn
            (applyTitleInference (parsedLines t) (firstPass (parsedLines t))).problem).getD
            ("unspecified".data) } := by
    unfold applyBackfill
    rw [if_pos (by simp [hai, hpr, List.isEmpty_eq_false])]
    cases hk : firstKeywordIn
        (applyTitleInference (parsedLines t) (firstPass (parsedLines t))).problem with
    | none => simp
    | some kw => simp
  have hkw_ne : (firstKeywordIn
      (applyTitleInference (parsedLines t) (firstPass (parsedLines t))).problem).getD
      ("unspecified".data) ≠ [] := by
    cases hk : firstKeywordIn
        (applyTitleInference (parsedLines t) (firstPass (parsedLines t))).problem with
    | none => simp [Option.getD]
    | some kw =>
      have hmem : kw ∈ KEYWORDS_LOWER := List.mem_of_find?_eq_some hk
      have : ∀ k ∈ KEYWORDS_LOWER, k ≠ ([] : List Char) := by decide
      simpa using this kw hmem
  have h1 : ({ applyTitleInference (parsedLines t) (firstPass (parsedLines t)) with
      ai_solution :=
        (firstKeywordIn
          (applyTitleInference (parsedLines t) (firstPass (parsedLines t))).problem).getD
          ("unspecified".data) } : Fields).title.isEmpty = false :=
    List.isEmpty_eq_false.mpr hti
  have h2 : ({ applyTitleInference (parsedLines t) (firstPass (parsedLines t)) with
      ai_solution :=
        (firstKeywordIn
          (applyTitleInference (parsedLines t) (firstPass (parsedLines t))).problem).getD
          ("unspecified".data) } : Fields).ai_solution.isEmpty = false :=
    List.isEmpty_eq_false.mpr hkw_ne
  unfold parse_labelled_output preGate
  rw [hback]
  simp [hne, h1, h2]

/-- C6 witness: the amended statement applied to the reply
`"Title: Foo\nProblem: uses machine learning for defect detection"`, whose
backfilled `ai_solution` is the keyword `"machine learning"`. -/
theorem parse_backfill_sets_keyword_witness :
    parse_labelled_output replyBackfill =
      some { applyTitleInference (parsedLines replyBackfill)
               (firstPass (parsedLines replyBackfill)) with
             ai_solution :=
               (firstKeywordIn
                 (applyTitleInference (parsedLines replyBackfill)
                   (firstPass (parsedLines replyBackfill))).problem).getD
                 ("unspecified".data) } :=
  parse_backfill_sets_keyword replyBackfill (by decide) (by decide) (by decide) (by decide)

end Digest
